import Mathlib

/-!
Verification of the transaction-sync and report-polling core of the
spirit-cat proxy server.

The two algorithms under study live in the Plaid router module:

* the `/transactions` route runs a cursor-paginated sync loop
  (`while (hasMore) { ... transactionsSync ... }`) that accumulates
  `added` / `modified` / `removed` across pages, following `next_cursor`,
  and finally answers with the 8 most recent `added` transactions sorted
  by date;
* `getAssetReportWithRetries` polls `assetReportGet` recursively with a
  fixed `setTimeout` delay and a decrementing `retriesLeft` budget.

Both are embedded below as pure functions over an explicit response
script (the sequence of results the remote client produces), together
with traces of the observable events (cursors passed to each fetch,
attempts made, delays scheduled, budget at each attempt, rejections
raised).
-/

namespace SpiritCat

/-- A transaction as far as the sync endpoint inspects it: only the
`date` field is ever read (by the sort comparator); `id` stands for the
rest of the payload. -/
structure Txn where
  id : String
  date : String
  deriving DecidableEq, Repr

/-- One page of `transactionsSync` results, as read by the loop body:
`data.added`, `data.modified`, `data.removed`, `data.has_more`,
`data.next_cursor`. -/
structure Page where
  added : List Txn
  modified : List Txn
  removed : List String
  has_more : Bool
  next_cursor : String
  deriving DecidableEq, Repr

/-- The three accumulators of the sync loop after it drains. -/
structure SyncResult where
  added : List Txn
  modified : List Txn
  removed : List String
  deriving DecidableEq, Repr

/-- Outcome of one run of the sync loop.

* `ok` — the loop exited because a page reported `has_more = false`;
  carries the accumulated result and the final cursor value.
* `err` — a `transactionsSync` call rejected; the thrown error
  propagates through `.catch(next)` and the accumulated locals are
  discarded (note the constructor carries no lists).
* `noResponse` — the response script ran out while the loop still
  wanted a page: this models a fetch whose promise never settles
  (equivalently, the unbounded iteration the source allows when the
  provider keeps answering `has_more = true`). -/
inductive SyncOut where
  | ok (result : SyncResult) (finalCursor : Option String)
  | err (e : String)
  | noResponse
  deriving DecidableEq, Repr

/-- The `while (hasMore)` loop of the `/transactions` route, with the
remote `client.transactionsSync` replaced by a script of responses
consumed in order. The loop body is a line-by-line transcription:
concatenate the page's `added` / `modified` / `removed` onto the
accumulators, read `has_more`, replace `cursor` with `next_cursor`.
The first component of the result records the cursor argument of every
fetch call issued, in order (a call is recorded even when its response
is an error or never arrives). -/
def syncLoop : List (Except String Page) → Option String →
    List Txn → List Txn → List String →
    List (Option String) × SyncOut
  | [], cursor, _, _, _ => ([cursor], .noResponse)
  | resp :: rest, cursor, added, modified, removed =>
    match resp with
    | .error e => ([cursor], .err e)
    | .ok data =>
      let added' := added ++ data.added
      let modified' := modified ++ data.modified
      let removed' := removed ++ data.removed
      if data.has_more then
        let next := syncLoop rest (some data.next_cursor) added' modified' removed'
        (cursor :: next.1, next.2)
      else
        ([cursor], .ok ⟨added', modified', removed'⟩ (some data.next_cursor))

/-- The sync phase of the `/transactions` route: `cursor` starts as
`null` (the start sentinel) and all three accumulators start empty. -/
def transactionsSyncRun (script : List (Except String Page)) :
    List (Option String) × SyncOut :=
  syncLoop script none [] [] []

/-! ### The polling retrier `getAssetReportWithRetries`

The source builds a `new Promise((resolve, reject) => ...)` at each
level: it calls `assetReportGet`; on success it resolves with the
response; on failure it schedules a `setTimeout(ms)` and, once the
timer fires, rejects with a fixed string when `retriesLeft === 1` and
otherwise recurses with `retriesLeft - 1`, forwarding only resolution
(`.then(resolve)` — a rejection of the recursive promise is not
forwarded, so the enclosing promise never settles).

The embedding replaces `assetReportGet` with a script indexed by the
attempt number and returns, besides the promise outcome, the traces of
the observable events. -/

/-- How the promise returned by one invocation settles.

* `resolved v` — fulfilled with attempt value `v`;
* `rejected msg` — rejected with `msg` (the caller's `await` throws);
* `hung` — never settles: this is what the enclosing level's promise
  does when the recursive call rejects, because the recursion is
  consumed with `.then(resolve)` and no rejection handler. -/
inductive PollOutcome where
  | resolved (v : String)
  | rejected (msg : String)
  | hung
  deriving DecidableEq, Repr

/-- Observable trace of one invocation of the poller:
`outcome` of the returned promise, the number of `assetReportGet`
`attempts` issued, the list of `setTimeout` `delays` scheduled (each
entry the `ms` argument), the `retriesLeft` value in scope at each
attempt in order (`budgets`), and the rejection raised at the innermost
recursion level, if any (`innerReject` — this is the `reject(...)` call
itself, whether or not it ever reaches the original caller). -/
structure PollTrace where
  outcome : PollOutcome
  attempts : Nat
  delays : List Nat
  budgets : List Nat
  innerReject : Option String
  deriving DecidableEq, Repr

/-- The string the source rejects with when the budget is exhausted. -/
def exhaustedMsg : String := "Ran out of retries while polling for asset report"

/-- `getAssetReportWithRetries(plaidClient, token, ms, retriesLeft)`.
`attemptResult k` is the settlement of the `k`-th `assetReportGet` call
(the source's defaults are `ms = 1000`, `retriesLeft = 20`).

Branch by branch, mirroring the source: on a fulfilled attempt, resolve
with its value at once (one attempt, no delay). On a rejected attempt
the error is swallowed by `.catch(() => ...)` and a timer of `ms` is
scheduled unconditionally; after the delay, if `retriesLeft === 1` the
promise rejects with `exhaustedMsg`, otherwise the function recurses
with `retriesLeft - 1` and the enclosing promise resolves iff the
recursive one resolves (a recursive rejection is unhandled, leaving the
enclosing promise pending forever — `hung`).

The `retriesLeft = 0` base case is a model boundary: in the source a
non-positive budget recurses forever (an unbounded chain of failed
attempts and delays, never hitting the `=== 1` test), so the model
reports `hung` with an empty trace; every property below assumes the
documented precondition `retriesLeft ≥ 1`, from which this case is
unreachable. -/
def getAssetReportWithRetries (attemptResult : Nat → Except String String)
    (ms : Nat) : Nat → Nat → PollTrace
  | _, 0 => ⟨.hung, 0, [], [], none⟩
  | k, retriesLeft + 1 =>
    match attemptResult k with
    | .ok v => ⟨.resolved v, 1, [], [retriesLeft + 1], none⟩
    | .error _ =>
      if retriesLeft = 0 then
        ⟨.rejected exhaustedMsg, 1, [ms], [1], some exhaustedMsg⟩
      else
        let t := getAssetReportWithRetries attemptResult ms (k + 1) retriesLeft
        ⟨match t.outcome with
          | .resolved v => .resolved v
          | .rejected _ => .hung
          | .hung => .hung,
         t.attempts + 1, ms :: t.delays, (retriesLeft + 1) :: t.budgets,
         t.innerReject⟩

/-! ### Post-processing of the `/transactions` response

After the loop drains, the route computes
`const recently_added = [...added].sort(compareTxnsByDateAscending).slice(-8)`
and answers `{ latest_transactions: recently_added }`. JavaScript's
`sort` with a comparator is a stable sort keeping `a` before `b`
whenever the comparator is `≤ 0`, and `slice(-8)` keeps the last eight
elements (the whole array when shorter); the spread copies the array,
so the `added` accumulator itself is left untouched — in the pure
embedding this is automatic, and `recently_added` below is a function
of the `added` list alone. -/

/-- `(a.date > b.date) - (a.date < b.date)`: JavaScript coerces the two
booleans to `0`/`1`, giving `1`, `0` or `-1`. Dates are compared as
strings (lexicographically). -/
def compareTxnsByDateAscending (a b : Txn) : Int :=
  (if a.date > b.date then (1 : Int) else 0) - (if a.date < b.date then 1 else 0)

/-- `[...added].sort(compareTxnsByDateAscending).slice(-8)`: stable
sort by the comparator, then the last eight elements. -/
def recently_added (added : List Txn) : List Txn :=
  let sorted := added.mergeSort (fun a b => compareTxnsByDateAscending a b ≤ 0)
  sorted.drop (sorted.length - 8)

/-- Response of the `/transactions` route as a whole: run the sync
loop, then answer with `latest_transactions` on success; a thrown
error instead reaches `.catch(next)`. -/
inductive EndpointOut where
  | ok (latest_transactions : List Txn)
  | err (e : String)
  | noResponse
  deriving DecidableEq, Repr

/-- The `/transactions` route, scripted: sync, then post-process. -/
def transactionsEndpoint (script : List (Except String Page)) : EndpointOut :=
  match (transactionsSyncRun script).2 with
  | .ok result _ => .ok (recently_added result.added)
  | .err e => .err e
  | .noResponse => .noResponse

/-! ### Concrete data used to evaluate the theorems -/

/-- Sample transaction `A`. -/
def txnA : Txn := ⟨"A", "2023-01-01"⟩

/-- Sample transaction `B`. -/
def txnB : Txn := ⟨"B", "2023-01-02"⟩

/-- First sample page: `{added:[A,B], has_more:true, next_cursor:"c1"}`. -/
def page1 : Page := ⟨[txnA, txnB], [], [], true, "c1"⟩

/-- Second sample page: `{modified:[A], has_more:true, next_cursor:"c2"}`. -/
def page2 : Page := ⟨[], [txnA], [], true, "c2"⟩

/-- Third sample page: `{removed:[B], has_more:false, next_cursor:"c3"}`. -/
def page3 : Page := ⟨[], [], ["B"], false, "c3"⟩

/-- An `assetReportGet` that rejects on every call. -/
def failingAttempts : Nat → Except String String :=
  fun _ => .error "asset report not ready"

/-- An `assetReportGet` that rejects on the first call and fulfills
with `"report"` on the second. -/
def sampleAttempts : Nat → Except String String :=
  fun k => if k = 0 then .error "asset report not ready" else .ok "report"

/-- Core lemma: if the script is `front ++ [last]` where every page of
`front` has `has_more = true` and `last` has `has_more = false`, the
loop consumes exactly the whole script, passes the start cursor to the
first call and each page's `next_cursor` to the following call, and
returns the in-order concatenation of the three sequences appended to
the incoming accumulators. -/
theorem syncLoop_drain (front : List Page) (last : Page)
    (hfront : ∀ p ∈ front, p.has_more = true)
    (hlast : last.has_more = false) :
    ∀ (cursor : Option String) (a m : List Txn) (r : List String),
      syncLoop ((front ++ [last]).map Except.ok) cursor a m r =
        (cursor :: front.map (fun p => some p.next_cursor),
         .ok ⟨a ++ (front ++ [last]).flatMap Page.added,
              m ++ (front ++ [last]).flatMap Page.modified,
              r ++ (front ++ [last]).flatMap Page.removed⟩
           (some last.next_cursor)) := by
  induction front with
  | nil =>
    intro cursor a m r
    simp [syncLoop, hlast]
  | cons p front ih =>
    intro cursor a m r
    have hp : p.has_more = true := hfront p (by simp)
    have ih' := ih (fun q hq => hfront q (by simp [hq]))
      (some p.next_cursor) (a ++ p.added) (m ++ p.modified) (r ++ p.removed)
    simp only [List.map_append, List.map_cons, List.map_nil] at ih'
    simp [syncLoop, hp, ih', List.flatMap_cons, List.append_assoc]

/-- Core lemma: if the script is `front` (all successful pages with
`has_more = true`) followed by a failing fetch, the loop issues exactly
`front.length + 1` calls — the failing one included, none after it —
and surfaces the error with the accumulation discarded. The shape of
the script after the error (`rest`) is irrelevant: those calls are
never issued. -/
theorem syncLoop_err (front : List Page) (e : String)
    (rest : List (Except String Page))
    (hfront : ∀ p ∈ front, p.has_more = true) :
    ∀ (cursor : Option String) (a m : List Txn) (r : List String),
      syncLoop (front.map Except.ok ++ Except.error e :: rest) cursor a m r =
        (cursor :: front.map (fun p => some p.next_cursor), .err e) := by
  induction front with
  | nil =>
    intro cursor a m r
    simp [syncLoop]
  | cons p front ih =>
    intro cursor a m r
    have hp : p.has_more = true := hfront p (by simp)
    have ih' := ih (fun q hq => hfront q (by simp [hq]))
      (some p.next_cursor) (a ++ p.added) (m ++ p.modified) (r ++ p.removed)
    simp [syncLoop, hp, ih']

/-- The budget trace written as a map over `range`, unfolded by one
step: prepending the budget `M + 1` to a trace descending from `M`. -/
theorem budgets_range_succ (M n : Nat) :
    (M + 1) :: (List.range n).map (fun i => M - i) =
      (List.range (n + 1)).map (fun i => M + 1 - i) := by
  simp only [List.range_succ_eq_map, List.map_cons, List.map_map, Nat.sub_zero]
  exact congrArg (List.cons (M + 1)) (List.map_congr_left
    (fun i _ => by simp only [Function.comp_apply]; omega))

/-- Core lemma (success path): if attempts `k .. k+M-2` fail and
attempt `k+M-1` fulfills with `v`, an invocation with budget `M ≥ 1`
starting at attempt `k` resolves with `v` after exactly `M` attempts
and `M - 1` delays of `ms` each, with budgets `M, M-1, ..., 1`
recorded and no rejection raised anywhere. -/
theorem poll_succeeds (attemptResult : Nat → Except String String)
    (ms : Nat) (v : String) :
    ∀ (M k : Nat), 1 ≤ M →
      (∀ i, i < M - 1 → ∃ e, attemptResult (k + i) = .error e) →
      attemptResult (k + (M - 1)) = .ok v →
      getAssetReportWithRetries attemptResult ms k M =
        ⟨.resolved v, M, List.replicate (M - 1) ms,
         (List.range M).map (fun i => M - i), none⟩ := by
  intro M
  induction M with
  | zero => omega
  | succ M ih =>
    intro k _ hfail hsucc
    rcases Nat.eq_zero_or_pos M with hM0 | hMpos
    · subst hM0
      simp only [Nat.add_sub_cancel, Nat.add_zero] at hsucc
      simp [getAssetReportWithRetries, hsucc, List.range_succ]
    · obtain ⟨e, he⟩ := hfail 0 (by omega)
      rw [Nat.add_zero] at he
      have hfail' : ∀ i, i < M - 1 → ∃ e, attemptResult (k + 1 + i) = .error e := by
        intro i hi
        obtain ⟨e', he'⟩ := hfail (i + 1) (by omega)
        exact ⟨e', by rw [show k + 1 + i = k + (i + 1) by omega]; exact he'⟩
      have hsucc' : attemptResult (k + 1 + (M - 1)) = .ok v := by
        rw [show k + 1 + (M - 1) = k + (M + 1 - 1) by omega]; exact hsucc
      have ih' := ih (k + 1) hMpos hfail' hsucc'
      have hMne : M ≠ 0 := by omega
      simp only [getAssetReportWithRetries, he, ih', if_neg hMne]
      congr 1
      · rw [show M + 1 - 1 = (M - 1) + 1 by omega, List.replicate_succ]
      · exact budgets_range_succ M M

/-- Core lemma (exhaustion path): if every attempt from `k` on fails,
an invocation with budget `M ≥ 1` makes exactly `M` attempts and
schedules exactly `M` delays of `ms` each — one after every failed
attempt, the final one included — records budgets `M, M-1, ..., 1`,
raises the fixed exhaustion rejection at the innermost level, and the
promise handed to the caller rejects when `M = 1` but never settles
when `M ≥ 2` (the recursive rejection is swallowed by
`.then(resolve)`). -/
theorem poll_exhausts (attemptResult : Nat → Except String String)
    (ms : Nat) (hfail : ∀ i, ∃ e, attemptResult i = .error e) :
    ∀ (M k : Nat), 1 ≤ M →
      getAssetReportWithRetries attemptResult ms k M =
        ⟨if M = 1 then .rejected exhaustedMsg else .hung,
         M, List.replicate M ms,
         (List.range M).map (fun i => M - i), some exhaustedMsg⟩ := by
  intro M
  induction M with
  | zero => omega
  | succ M ih =>
    intro k _
    obtain ⟨e, he⟩ := hfail k
    rcases Nat.eq_zero_or_pos M with hM0 | hMpos
    · subst hM0
      simp [getAssetReportWithRetries, he, List.range_succ]
    · have ih' := ih (k + 1) hMpos
      have hMne : M ≠ 0 := by omega
      simp only [getAssetReportWithRetries, he, ih', if_neg hMne]
      congr 1
      · rcases eq_or_ne M 1 with h1 | h1 <;>
          simp [h1, show M + 1 ≠ 1 by omega]
      · exact budgets_range_succ M M

/-- The comparator is `≤ 0` exactly when the first date is not later. -/
theorem compareTxns_le_zero_iff (a b : Txn) :
    compareTxnsByDateAscending a b ≤ 0 ↔ a.date ≤ b.date := by
  unfold compareTxnsByDateAscending
  rcases lt_trichotomy a.date b.date with h | h | h
  · rw [if_neg (not_lt.mpr h.le), if_pos h]
    exact iff_of_true (by norm_num) h.le
  · rw [if_neg (by rw [h]; exact lt_irrefl _), if_neg (by rw [h]; exact lt_irrefl _)]
    exact iff_of_true (by norm_num) (le_of_eq h)
  · rw [if_pos h, if_neg (not_lt.mpr h.le)]
    exact iff_of_false (by norm_num) (not_le.mpr h)

/-- The sorted prefix computed by `recently_added` is sorted by date:
pairwise, earlier elements have dates `≤` later ones. -/
theorem recently_added_sorted (l : List Txn) :
    (recently_added l).Pairwise (fun a b => a.date ≤ b.date) := by
  have htrans : ∀ a b c : Txn,
      (decide (compareTxnsByDateAscending a b ≤ 0)) = true →
      (decide (compareTxnsByDateAscending b c ≤ 0)) = true →
      (decide (compareTxnsByDateAscending a c ≤ 0)) = true := by
    intro a b c hab hbc
    simp only [decide_eq_true_eq, compareTxns_le_zero_iff] at hab hbc ⊢
    exact le_trans hab hbc
  have htotal : ∀ a b : Txn,
      ((decide (compareTxnsByDateAscending a b ≤ 0)) ||
        (decide (compareTxnsByDateAscending b a ≤ 0))) = true := by
    intro a b
    simp only [Bool.or_eq_true, decide_eq_true_eq, compareTxns_le_zero_iff]
    exact le_total a.date b.date
  have hsorted := List.sorted_mergeSort htrans htotal l
  simp only [recently_added]
  refine List.Pairwise.sublist (List.drop_sublist _ _) ?_
  exact hsorted.imp (fun h => by
    simpa only [decide_eq_true_eq, compareTxns_le_zero_iff] using h)

/-- `slice(-8)` keeps at most eight elements. -/
theorem recently_added_length (l : List Txn) : (recently_added l).length ≤ 8 := by
  simp only [recently_added, List.length_drop, List.length_mergeSort]
  omega

/-- Core lemma (budget trace): for any attempt script and any initial
budget `M ≥ 1`, the `retriesLeft` values in scope at the successive
attempts form the chain `M, M - 1, ...` down to the budget of the last
attempt made — between `1` and `M` attempts happen, and the budget is
decremented by exactly one between consecutive attempts. -/
theorem poll_budgets (attemptResult : Nat → Except String String) (ms : Nat) :
    ∀ M k, 1 ≤ M →
      (getAssetReportWithRetries attemptResult ms k M).budgets =
        (List.range (getAssetReportWithRetries attemptResult ms k M).attempts).map
          (fun i => M - i) ∧
      1 ≤ (getAssetReportWithRetries attemptResult ms k M).attempts ∧
      (getAssetReportWithRetries attemptResult ms k M).attempts ≤ M := by
  intro M
  induction M with
  | zero => omega
  | succ M ih =>
    intro k _
    cases hres : attemptResult k with
    | ok v =>
      have hval : getAssetReportWithRetries attemptResult ms k (M + 1) =
          ⟨.resolved v, 1, [], [M + 1], none⟩ := by
        simp [getAssetReportWithRetries, hres]
      rw [hval]
      exact ⟨by simp [List.range_succ], le_refl 1, by
        show 1 ≤ M + 1; omega⟩
    | error e =>
      rcases Nat.eq_zero_or_pos M with hM0 | hMpos
      · subst hM0
        have hval : getAssetReportWithRetries attemptResult ms k 1 =
            ⟨.rejected exhaustedMsg, 1, [ms], [1], some exhaustedMsg⟩ := by
          simp [getAssetReportWithRetries, hres]
        rw [hval]
        exact ⟨by simp [List.range_succ], le_refl 1, le_refl 1⟩
      · obtain ⟨ihb, iha1, ihaM⟩ := ih (k + 1) hMpos
        have hMne : M ≠ 0 := by omega
        refine ⟨?_, ?_, ?_⟩
        · simp only [getAssetReportWithRetries, hres, if_neg hMne]
          rw [ihb]
          exact budgets_range_succ M
            ((getAssetReportWithRetries attemptResult ms (k + 1) M).attempts)
        · simp only [getAssetReportWithRetries, hres, if_neg hMne]
          omega
        · simp only [getAssetReportWithRetries, hres, if_neg hMne]
          omega

/-! ### The claims -/

/-- Claim C1: for every sequence of `N ≥ 1` pages where pages `1..N-1`
report `has_more = true` and page `N` reports `has_more = false`, the
sync loop issues exactly `N` fetch calls and returns `added` /
`modified` / `removed` equal to the in-order concatenation of each
page's respective sequences — no reordering, no deduplication (the
decomposition `front ++ [last]` is exactly such a sequence, with
`N = front.length + 1`). -/
theorem sync_drains_all_pages (front : List Page) (last : Page)
    (hfront : ∀ p ∈ front, p.has_more = true)
    (hlast : last.has_more = false) :
    (transactionsSyncRun ((front ++ [last]).map Except.ok)).1.length =
      (front ++ [last]).length ∧
    (transactionsSyncRun ((front ++ [last]).map Except.ok)).2 =
      .ok ⟨(front ++ [last]).flatMap Page.added,
           (front ++ [last]).flatMap Page.modified,
           (front ++ [last]).flatMap Page.removed⟩ (some last.next_cursor) := by
  unfold transactionsSyncRun
  rw [syncLoop_drain front last hfront hlast none [] [] []]
  simp

/-- Witness for `sync_drains_all_pages`: the spec's three-page
scenario — added `[A, B]`, then modified `[A]`, then removed `[B]`. -/
theorem sync_drains_all_pages_witness :
    (transactionsSyncRun (([page1, page2] ++ [page3]).map Except.ok)).1.length =
      ([page1, page2] ++ [page3]).length ∧
    (transactionsSyncRun (([page1, page2] ++ [page3]).map Except.ok)).2 =
      .ok ⟨([page1, page2] ++ [page3]).flatMap Page.added,
           ([page1, page2] ++ [page3]).flatMap Page.modified,
           ([page1, page2] ++ [page3]).flatMap Page.removed⟩ (some page3.next_cursor) :=
  sync_drains_all_pages [page1, page2] page3 (by decide) (by decide)

/-- Claim C2: on a draining run, the first fetch call uses the start
cursor (`null`) and the cursor passed to fetch call `k + 1` is exactly
the `next_cursor` returned by fetch call `k` (indices `0`-based); the
cursor is only ever replaced wholesale with the latest page's
`next_cursor`, as the full trace equation states. -/
theorem sync_cursor_chain (front : List Page) (last : Page)
    (hfront : ∀ p ∈ front, p.has_more = true)
    (hlast : last.has_more = false) :
    (transactionsSyncRun ((front ++ [last]).map Except.ok)).1 =
      none :: front.map (fun p => some p.next_cursor) ∧
    (∀ k : Nat,
      (transactionsSyncRun ((front ++ [last]).map Except.ok)).1[k + 1]? =
        front[k]?.map (fun p => some p.next_cursor)) := by
  unfold transactionsSyncRun
  rw [syncLoop_drain front last hfront hlast none [] [] []]
  exact ⟨rfl, fun k => by simp⟩

/-- Witness for `sync_cursor_chain`: cursor progression
`null → "c1" → "c2"` across the three sample pages. -/
theorem sync_cursor_chain_witness :
    (transactionsSyncRun (([page1, page2] ++ [page3]).map Except.ok)).1 =
      none :: [page1, page2].map (fun p => some p.next_cursor) ∧
    (∀ k : Nat,
      (transactionsSyncRun (([page1, page2] ++ [page3]).map Except.ok)).1[k + 1]? =
        [page1, page2][k]?.map (fun p => some p.next_cursor)) :=
  sync_cursor_chain [page1, page2] page3 (by decide) (by decide)

/-- Claim C3: if a fetch call fails after `front.length` successful
pages, the sync issues exactly `front.length + 1` calls — none after
the failure, whatever responses (`rest`) would have followed — and
surfaces the error; the `err` outcome carries no accumulated lists, so
the caller sees an error, never a partial result. -/
theorem sync_aborts_on_error (front : List Page) (e : String)
    (rest : List (Except String Page))
    (hfront : ∀ p ∈ front, p.has_more = true) :
    (transactionsSyncRun (front.map Except.ok ++ Except.error e :: rest)).1.length =
      front.length + 1 ∧
    (transactionsSyncRun (front.map Except.ok ++ Except.error e :: rest)).2 =
      .err e := by
  unfold transactionsSyncRun
  rw [syncLoop_err front e rest hfront none [] [] []]
  simp

/-- Witness for `sync_aborts_on_error`: one good page, then a failure,
with one more page available that is never fetched. -/
theorem sync_aborts_on_error_witness :
    (transactionsSyncRun ([page1].map Except.ok ++
        Except.error "INTERNAL_SERVER_ERROR" :: [Except.ok page3])).1.length =
      [page1].length + 1 ∧
    (transactionsSyncRun ([page1].map Except.ok ++
        Except.error "INTERNAL_SERVER_ERROR" :: [Except.ok page3])).2 =
      .err "INTERNAL_SERVER_ERROR" :=
  sync_aborts_on_error [page1] "INTERNAL_SERVER_ERROR" [Except.ok page3] (by decide)

/-- Claim C4: with `maxAttempts = M ≥ 1`, if the attempt fails on
attempts `1..M-1` and fulfills with `v` on attempt `M`, the poll
resolves with `v`, makes exactly `M` attempts (none after the
success), and incurs exactly `M - 1` delays of length `ms`. -/
theorem poll_returns_final_attempt (attemptResult : Nat → Except String String)
    (ms : Nat) (v : String) (M : Nat) (hM : 1 ≤ M)
    (hfail : ∀ i, i < M - 1 → ∃ e, attemptResult i = .error e)
    (hsucc : attemptResult (M - 1) = .ok v) :
    (getAssetReportWithRetries attemptResult ms 0 M).outcome = .resolved v ∧
    (getAssetReportWithRetries attemptResult ms 0 M).attempts = M ∧
    (getAssetReportWithRetries attemptResult ms 0 M).delays =
      List.replicate (M - 1) ms := by
  rw [poll_succeeds attemptResult ms v M 0 hM
    (fun i hi => by simpa using hfail i hi) (by simpa using hsucc)]
  exact ⟨rfl, rfl, rfl⟩

/-- Witness for `poll_returns_final_attempt`: fail once, then succeed
with `"report"` under a budget of 2 — one delay of 1000 ms. -/
theorem poll_returns_final_attempt_witness :
    (getAssetReportWithRetries sampleAttempts 1000 0 2).outcome =
      .resolved "report" ∧
    (getAssetReportWithRetries sampleAttempts 1000 0 2).attempts = 2 ∧
    (getAssetReportWithRetries sampleAttempts 1000 0 2).delays =
      List.replicate 1 1000 :=
  poll_returns_final_attempt sampleAttempts 1000 "report" 2 (by omega)
    (fun i hi => ⟨"asset report not ready", by
      have h0 : i = 0 := by omega
      subst h0; rfl⟩)
    rfl

/-- Claim C5 counterexample: the claim asserts that `maxAttempts = 1`
with a failing attempt yields the exhaustion error with zero delay
elapsed, but the source schedules its `setTimeout(ms)` before testing
`retriesLeft === 1`, so one delay of `ms` is incurred even on the
final (here: only) failed attempt. -/
theorem poll_single_failure_delays :
    (getAssetReportWithRetries failingAttempts 1000 0 1).delays = [1000] ∧
    (getAssetReportWithRetries failingAttempts 1000 0 1).delays ≠ [] :=
  ⟨rfl, by decide⟩

/-- Claim C5 (amended): with `maxAttempts = M ≥ 1` and every attempt
failing, exactly `M` attempts are made and exactly `M` delays of
length `ms` occur — one after every failed attempt, the final one
included. The exhaustion rejection is raised (after the final delay)
at the innermost recursion level; the promise handed to the caller
rejects with it when `M = 1` and never settles when `M ≥ 2`. -/
theorem poll_exhaustion_behavior (attemptResult : Nat → Except String String)
    (ms M : Nat) (hM : 1 ≤ M)
    (hfail : ∀ i, ∃ e, attemptResult i = .error e) :
    (getAssetReportWithRetries attemptResult ms 0 M).attempts = M ∧
    (getAssetReportWithRetries attemptResult ms 0 M).delays =
      List.replicate M ms ∧
    (getAssetReportWithRetries attemptResult ms 0 M).innerReject =
      some exhaustedMsg ∧
    (getAssetReportWithRetries attemptResult ms 0 M).outcome =
      (if M = 1 then .rejected exhaustedMsg else .hung) := by
  rw [poll_exhausts attemptResult ms hfail M 0 hM]
  exact ⟨rfl, rfl, rfl, rfl⟩

/-- Witness for `poll_exhaustion_behavior`: budget 1, always-failing
attempt — one attempt, one delay, visible rejection. -/
theorem poll_exhaustion_behavior_witness :
    (getAssetReportWithRetries failingAttempts 1000 0 1).attempts = 1 ∧
    (getAssetReportWithRetries failingAttempts 1000 0 1).delays =
      List.replicate 1 1000 ∧
    (getAssetReportWithRetries failingAttempts 1000 0 1).innerReject =
      some exhaustedMsg ∧
    (getAssetReportWithRetries failingAttempts 1000 0 1).outcome =
      (if 1 = 1 then .rejected exhaustedMsg else .hung) :=
  poll_exhaustion_behavior failingAttempts 1000 1 (le_refl 1)
    (fun _ => ⟨"asset report not ready", rfl⟩)

/-- Claim C6 counterexample: exhausting runs with different attempt
counts (one attempt under budget 1, two under budget 2) raise
identical exhaustion rejections — the rejection value is a constant
string and therefore carries no count of the attempts made. -/
theorem exhaustion_carries_no_count :
    (getAssetReportWithRetries failingAttempts 1000 0 1).attempts ≠
      (getAssetReportWithRetries failingAttempts 1000 0 2).attempts ∧
    (getAssetReportWithRetries failingAttempts 1000 0 1).innerReject =
      (getAssetReportWithRetries failingAttempts 1000 0 2).innerReject :=
  ⟨by decide, rfl⟩

/-- Claim C6 (amended): the exhaustion rejection is distinct from the
underlying attempt's error — the latter is discarded by
`.catch(() => ...)` and never propagated, as shown by the rejection
being the same fixed string for every script of underlying errors —
but it is a bare constant and carries no count of attempts. -/
theorem exhaustion_is_fixed_string (attemptResult : Nat → Except String String)
    (ms M : Nat) (hM : 1 ≤ M)
    (hfail : ∀ i, ∃ e, attemptResult i = .error e) :
    (getAssetReportWithRetries attemptResult ms 0 M).innerReject =
      some exhaustedMsg ∧
    exhaustedMsg = "Ran out of retries while polling for asset report" := by
  rw [poll_exhausts attemptResult ms hfail M 0 hM]
  exact ⟨rfl, rfl⟩

/-- Witness for `exhaustion_is_fixed_string`: budget 2 with a failing
attempt whose own error text never appears in the rejection. -/
theorem exhaustion_is_fixed_string_witness :
    (getAssetReportWithRetries failingAttempts 1000 0 2).innerReject =
      some exhaustedMsg ∧
    exhaustedMsg = "Ran out of retries while polling for asset report" :=
  exhaustion_is_fixed_string failingAttempts 1000 2 (by omega)
    (fun _ => ⟨"asset report not ready", rfl⟩)

/-- Claim C7: for every attempt script and `maxAttempts = M ≥ 1`, the
remaining-attempts budget is `M` at the first attempt, at least `1`
(hence strictly non-negative) at every attempt, and decreases by
exactly one from each attempt to the next — it is never reset
mid-poll. -/
theorem poll_budget_monotone (attemptResult : Nat → Except String String)
    (ms M : Nat) (hM : 1 ≤ M) :
    (∀ b ∈ (getAssetReportWithRetries attemptResult ms 0 M).budgets, 1 ≤ b) ∧
    (getAssetReportWithRetries attemptResult ms 0 M).budgets.head? = some M ∧
    (∀ i : Nat,
      i + 1 < (getAssetReportWithRetries attemptResult ms 0 M).budgets.length →
      (getAssetReportWithRetries attemptResult ms 0 M).budgets[i]? =
        ((getAssetReportWithRetries attemptResult ms 0 M).budgets[i + 1]?).map
          (· + 1)) := by
  obtain ⟨hb, ha1, haM⟩ := poll_budgets attemptResult ms M 0 hM
  refine ⟨?_, ?_, ?_⟩
  · intro b hbmem
    rw [hb] at hbmem
    simp only [List.mem_map, List.mem_range] at hbmem
    obtain ⟨i, hi, rfl⟩ := hbmem
    omega
  · rw [hb]
    obtain ⟨n, hn⟩ : ∃ n,
        (getAssetReportWithRetries attemptResult ms 0 M).attempts = n + 1 :=
      ⟨(getAssetReportWithRetries attemptResult ms 0 M).attempts - 1, by omega⟩
    rw [hn, List.range_succ_eq_map]
    simp
  · intro i hlen
    rw [hb] at hlen ⊢
    simp only [List.length_map, List.length_range] at hlen
    rw [List.getElem?_map, List.getElem?_map,
      List.getElem?_range (by omega : i < (getAssetReportWithRetries attemptResult ms 0 M).attempts),
      List.getElem?_range (by omega : i + 1 < (getAssetReportWithRetries attemptResult ms 0 M).attempts)]
    simp only [Option.map_some', Option.some.injEq]
    omega

/-- Witness for `poll_budget_monotone`: budget 2 over the
always-failing attempt. -/
theorem poll_budget_monotone_witness :
    (∀ b ∈ (getAssetReportWithRetries failingAttempts 1000 0 2).budgets, 1 ≤ b) ∧
    (getAssetReportWithRetries failingAttempts 1000 0 2).budgets.head? = some 2 ∧
    (∀ i : Nat,
      i + 1 < (getAssetReportWithRetries failingAttempts 1000 0 2).budgets.length →
      (getAssetReportWithRetries failingAttempts 1000 0 2).budgets[i]? =
        ((getAssetReportWithRetries failingAttempts 1000 0 2).budgets[i + 1]?).map
          (· + 1)) :=
  poll_budget_monotone failingAttempts 1000 2 (by omega)

/-- Claim C9: when the initial budget is `M ≥ 2` and every attempt
fails, the exhaustion rejection raised at the innermost level is not
forwarded by the enclosing levels (`.then(resolve)` has no rejection
handler), so the promise returned to the original caller never
settles; the rejection reaches the caller only when the initial budget
is exactly `1`. -/
theorem poll_rejection_swallowed (attemptResult : Nat → Except String String)
    (ms M : Nat) (hM : 2 ≤ M)
    (hfail : ∀ i, ∃ e, attemptResult i = .error e) :
    (getAssetReportWithRetries attemptResult ms 0 M).outcome = .hung ∧
    (getAssetReportWithRetries attemptResult ms 0 M).innerReject =
      some exhaustedMsg ∧
    (getAssetReportWithRetries attemptResult ms 0 1).outcome =
      .rejected exhaustedMsg := by
  rw [poll_exhausts attemptResult ms hfail M 0 (by omega),
    poll_exhausts attemptResult ms hfail 1 0 (le_refl 1)]
  exact ⟨by simp [show M ≠ 1 by omega], rfl, by simp⟩

/-- Witness for `poll_rejection_swallowed`: budget 2 over the
always-failing attempt — the caller's promise hangs. -/
theorem poll_rejection_swallowed_witness :
    (getAssetReportWithRetries failingAttempts 1000 0 2).outcome = .hung ∧
    (getAssetReportWithRetries failingAttempts 1000 0 2).innerReject =
      some exhaustedMsg ∧
    (getAssetReportWithRetries failingAttempts 1000 0 1).outcome =
      .rejected exhaustedMsg :=
  poll_rejection_swallowed failingAttempts 1000 2 (le_refl 2)
    (fun _ => ⟨"asset report not ready", rfl⟩)

/-- Claim C10: after the loop drains, the `/transactions` response is
`recently_added` applied to the concatenated `added` sequences alone —
a pure function of a copy of the accumulator, so `modified` and
`removed` contribute nothing and the accumulated `added` value is left
as is — and every `recently_added` output has at most 8 elements and
is sorted by date ascending. -/
theorem endpoint_recent_window (front : List Page) (last : Page)
    (hfront : ∀ p ∈ front, p.has_more = true)
    (hlast : last.has_more = false) :
    transactionsEndpoint ((front ++ [last]).map Except.ok) =
      .ok (recently_added ((front ++ [last]).flatMap Page.added)) ∧
    (∀ l : List Txn, (recently_added l).length ≤ 8) ∧
    (∀ l : List Txn,
      (recently_added l).Pairwise (fun a b => a.date ≤ b.date)) := by
  refine ⟨?_, recently_added_length, recently_added_sorted⟩
  unfold transactionsEndpoint transactionsSyncRun
  rw [syncLoop_drain front last hfront hlast none [] [] []]
  simp

/-- Witness for `endpoint_recent_window`: the three sample pages —
the response is `recently_added [A, B]`. -/
theorem endpoint_recent_window_witness :
    transactionsEndpoint (([page1, page2] ++ [page3]).map Except.ok) =
      .ok (recently_added (([page1, page2] ++ [page3]).flatMap Page.added)) ∧
    (∀ l : List Txn, (recently_added l).length ≤ 8) ∧
    (∀ l : List Txn,
      (recently_added l).Pairwise (fun a b => a.date ≤ b.date)) :=
  endpoint_recent_window [page1, page2] page3 (by decide) (by decide)

end SpiritCat
